import Mathlib

/-!
Verification of the offline-first synchronization engine of the
vehicle-maintenance-manager repository.

The embedding below models, faithfully to the JavaScript / Apps Script
source:

* flat records (JS objects mapping field names to primitive values),
  JS object spread, and property lookup;
* the client merge algorithm mergeData (js/google_sheets.js);
* the retrying API client makeApiRequest (js/google_sheets.js);
* the per-collection sync pull syncVehicles / syncData (js/google_sheets.js);
* the optimistic create / delete paths addVehicle / deleteVehicle
  (js/google_sheets.js);
* the backend row-store operations getAllVehicles, getAllMaintenance,
  addVehicle, addMaintenance, addReceipt, addReminder (gas/code.gs).

Values are either strings or integers (integers also stand for epoch-ms
dates); records are association lists in JS insertion order, looked up
first-match like JS property access.
-/

namespace VMM

/-- A primitive JS value stored in an entity record: a string, or a number
(numbers also represent epoch-millisecond dates). -/
inductive Value where
  | str (s : String)
  | num (n : Int)
deriving DecidableEq, Repr

/-- A flat entity record: field names to primitive values, in JS object
insertion order. -/
abbrev Record := List (String × Value)

/-- JS property lookup item[f]: first binding of the field wins,
none models undefined. -/
def getField (r : Record) (f : String) : Option Value :=
  match r with
  | [] => none
  | (k, v) :: rest => if k = f then some v else getField rest f

/-- JS object spread result for one key of a overlaid by b. -/
def overlayPair (b : Record) (p : String × Value) : String × Value :=
  match getField b p.1 with
  | some v => (p.1, v)
  | none => p

/-- JS object spread, as in the object literal with the fields of a
followed by the fields of b: fields of a keep their position but take
the value from b where b states the field; fields only in b are
appended in the order of b. -/
def spread (a b : Record) : Record :=
  a.map (overlayPair b) ++ b.filter (fun p => (getField a p.1).isNone)

/-- JS Array.prototype.findIndex, with none for -1. -/
def findIndex (p : Record → Bool) : List Record → Option Nat
  | [] => none
  | x :: xs => if p x then some 0 else (findIndex p xs).map (· + 1)

/-- One iteration of the remoteData.forEach body of mergeData
(js/google_sheets.js lines 558-576).  lids is the Set of local ids,
computed once from the original local list. -/
def mergeStep (lids : List (Option Value)) (idField : String)
    (merged : List Record) (remoteItem : Record) : List Record :=
  if getField remoteItem idField ∉ lids then
    merged ++ [remoteItem]
  else
    match findIndex (fun item => decide (getField item idField = getField remoteItem idField)) merged with
    | some index => merged.set index (spread (merged.getD index []) remoteItem)
    | none => merged

/-- mergeData(localData, remoteData, idField) from js/google_sheets.js
lines 558-576: copy the local list, collect the local id set once, then
fold the remote items: append when the id is absent from the local id
set, otherwise overwrite the first record with a matching id by the JS
spread of the old record and the remote record. -/
def mergeData (localData remoteData : List Record) (idField : String) : List Record :=
  remoteData.foldl
    (mergeStep (localData.map (fun item => getField item idField)) idField)
    localData

/-- Update-in-place half of a merge step: overwrite the first record
whose id matches the id of r by its spread with r. -/
def updFirst (idField : String) (xs : List Record) (r : Record) : List Record :=
  match findIndex (fun item => decide (getField item idField = getField r idField)) xs with
  | some i => xs.set i (spread (xs.getD i []) r)
  | none => xs

/-- The response envelope of the Apps Script backend as the client sees
it after response.json(): a status field, a message, and an optional
data array (none models a missing or non-array data field). -/
structure Envelope where
  status : Option String
  message : Option String
  data : Option (List Record)
deriving DecidableEq, Repr

/-- What one fetch of the endpoint produces: a transport failure
(rejected promise), or a reply with its ok flag, status text and parsed
JSON body. -/
inductive FetchOutcome where
  | netFail (msg : String)
  | reply (ok : Bool) (statusText : String) (body : Envelope)
deriving DecidableEq, Repr

/-- JS truthiness fallback m or d for an optional string (undefined and
the empty string are falsy). -/
def jsOrString (o : Option String) (d : String) : String :=
  match o with
  | some m => if m = "" then d else m
  | none => d

/-- The body of one iteration of the retry loop of makeApiRequest
(js/google_sheets.js lines 80-107): reject on transport failure, on a
non-ok response, or on an envelope whose status field is the string
error; otherwise resolve with the envelope. -/
def tryOnce (f : FetchOutcome) : Except String Envelope :=
  match f with
  | .netFail m => .error m
  | .reply ok statusText body =>
    if ok = false then .error ("HTTP " ++ statusText)
    else if body.status = some "error" then .error (jsOrString body.message "Unknown API error")
    else .ok body

/-- GOOGLE_CONFIG of js/google_sheets.js: deployment URL, timeout,
retry bound and base delay. -/
structure Config where
  webAppUrl : String
  timeout : Nat
  retryAttempts : Nat
  retryDelay : Nat
deriving DecidableEq, Repr

def GOOGLE_CONFIG : Config :=
  { webAppUrl := "https://script.google.com/macros/s/AKfycbynrcR_xRZKUB3YpFWEzajX8Fc1vYNYbUsDfSxC4Sz9pb2VFKx5DyUDpmRDTajuHNSW/exec"
    timeout := 30000
    retryAttempts := 3
    retryDelay := 1000 }

/-- The remote endpoint, abstracted: for an action string and a 1-based
attempt number, the outcome the fetch of that attempt produces. -/
abbrev Network := String → Nat → FetchOutcome

namespace GS

/-- The retry loop of makeApiRequest, counting down the remaining
attempts: try the current attempt; on success resolve; on failure
remember the error and continue; when no attempts remain, reject with
the last observed error.  Also returns the list of attempt numbers at
which the endpoint was actually fetched, so theorems can speak about
how many attempts were observed. -/
def attemptLoop (fetch : Nat → FetchOutcome) :
    Nat → Nat → Option String → Except String Envelope × List Nat
  | _, 0, lastError => (.error (lastError.getD "undefined"), [])
  | attempt, remaining + 1, _lastError =>
    match tryOnce (fetch attempt) with
    | .ok v => (.ok v, [attempt])
    | .error e =>
      let rest := attemptLoop fetch (attempt + 1) remaining (some e)
      (rest.1, attempt :: rest.2)

/-- makeApiRequest (js/google_sheets.js lines 50-110): fail immediately
when no web app URL is configured, otherwise run the retry loop over
attempts 1 .. retryAttempts. -/
def makeApiRequest (cfg : Config) (fetch : Nat → FetchOutcome) :
    Except String Envelope × List Nat :=
  if cfg.webAppUrl = "" then
    (.error "Google Apps Script web app URL not configured", [])
  else
    attemptLoop fetch 1 cfg.retryAttempts none

/-- The common shape of syncVehicles / syncMaintenanceRecords /
syncReceipts / syncReminders (js/google_sheets.js lines 460-553): pull
the collection, and only when the call resolved and carried an array
data field, merge it into the local store and write the result back;
a rejected pull is rethrown and leaves the store untouched.  Returns
the outcome, the resulting local store for the collection, and the
trace of (action, attempt) requests issued. -/
def syncCollection (cfg : Config) (net : Network) (action idField : String)
    (store : List Record) :
    Except String Unit × List Record × List (String × Nat) :=
  let res := makeApiRequest cfg (net action)
  let trace := res.2.map fun n => (action, n)
  match res.1 with
  | .error e => (.error e, store, trace)
  | .ok envl =>
    match envl.data with
    | some remote => (.ok (), mergeData store remote idField, trace)
    | none => (.ok (), store, trace)

/-- The action string of the vehicles pull, with the optional
since parameter of the incremental variant. -/
def vehiclesAction (lastSync : Option Int) : String :=
  "vehicles" ++ (match lastSync with
    | none => ""
    | some t => "?since=" ++ toString t)

def syncVehicles (cfg : Config) (net : Network) (lastSync : Option Int)
    (store : List Record) : Except String Unit × List Record × List (String × Nat) :=
  syncCollection cfg net (vehiclesAction lastSync) "vehicle_id" store

def syncMaintenanceRecords (cfg : Config) (net : Network) (lastSync : Option Int)
    (store : List Record) : Except String Unit × List Record × List (String × Nat) :=
  syncCollection cfg net ("maintenance" ++ (match lastSync with
    | none => ""
    | some t => "?since=" ++ toString t)) "log_id" store

def syncReceipts (cfg : Config) (net : Network) (lastSync : Option Int)
    (store : List Record) : Except String Unit × List Record × List (String × Nat) :=
  syncCollection cfg net ("receipts" ++ (match lastSync with
    | none => ""
    | some t => "?since=" ++ toString t)) "receipt_id" store

def syncReminders (cfg : Config) (net : Network) (lastSync : Option Int)
    (store : List Record) : Except String Unit × List Record × List (String × Nat) :=
  syncCollection cfg net ("reminders" ++ (match lastSync with
    | none => ""
    | some t => "?since=" ++ toString t)) "reminder_id" store

/-- syncData (js/google_sheets.js v1.0.4 lines 156-201): skip when
offline or unconfigured, otherwise issue the empty-action connectivity
test and then the vehicles sync.  The function consults no
sync-in-progress flag of any kind: its only guards are the connectivity
flag and the configured URL, so a second invocation issued while a
first is pending behaves exactly like the first.  Returns overall
success, the resulting vehicles store, and the request trace. -/
def syncData (cfg : Config) (isOnline : Bool) (net : Network) (store : List Record) :
    Bool × List Record × List (String × Nat) :=
  if ¬ isOnline ∨ cfg.webAppUrl = "" then
    (false, store, [])
  else
    let test := makeApiRequest cfg (net "")
    let traceT := test.2.map fun n => ("", n)
    match test.1 with
    | .error _ => (false, store, traceT)
    | .ok _ =>
      let v := syncCollection cfg net "vehicles" "vehicle_id" store
      match v.1 with
      | .error _ => (false, v.2.1, traceT ++ v.2.2)
      | .ok _ => (true, v.2.1, traceT ++ v.2.2)

/-- The vehicle object literal built by the client addVehicle:
vehicle_id first, then the spread of the form data, then the two
timestamps (which therefore always win). -/
def mkVehicle (genId now : String) (vehicleData : Record) : Record :=
  spread (spread [("vehicle_id", Value.str genId)] vehicleData)
    [("created_date", Value.str now), ("last_updated", Value.str now)]

/-- addVehicle (js/google_sheets.js lines 581-611): build the vehicle
record with a locally generated id and stamped timestamps, append it to
the local store first, and only then, when online and configured,
attempt the remote POST; a remote failure propagates but the local
append has already happened. -/
def addVehicle (cfg : Config) (isOnline : Bool) (genId now : String)
    (vehicleData : Record) (store : List Record) (net : Network) :
    Except String Record × List Record × List (String × Nat) :=
  let vehicle := mkVehicle genId now vehicleData
  let store2 := store ++ [vehicle]
  if isOnline ∧ cfg.webAppUrl ≠ "" then
    let res := makeApiRequest cfg (net "vehicles")
    let trace := res.2.map fun n => ("vehicles", n)
    match res.1 with
    | .error e => (.error e, store2, trace)
    | .ok _ => (.ok vehicle, store2, trace)
  else
    (.ok vehicle, store2, ([] : List (String × Nat)))

/-- The string form of a value, as JS coerces it into a URL path. -/
def valueToString (v : Value) : String :=
  match v with
  | .str s => s
  | .num n => toString n

/-- deleteVehicle (js/google_sheets.js lines 651-672): filter the
record out of the local store first, then, when online and configured,
attempt the remote DELETE; a remote failure propagates but the local
removal has already happened.  No tombstone of the deletion is kept
anywhere. -/
def deleteVehicle (cfg : Config) (isOnline : Bool) (vid : Value)
    (store : List Record) (net : Network) :
    Except String Bool × List Record × List (String × Nat) :=
  let filtered := store.filter fun v => decide (getField v "vehicle_id" ≠ some vid)
  if isOnline ∧ cfg.webAppUrl ≠ "" then
    let res := makeApiRequest cfg (net ("vehicles/" ++ valueToString vid))
    let trace := res.2.map fun n => ("vehicles/" ++ valueToString vid, n)
    match res.1 with
    | .error e => (.error e, filtered, trace)
    | .ok _ => (.ok true, filtered, trace)
  else
    (.ok true, filtered, ([] : List (String × Nat)))

end GS

/-- Number of vehicles-collection pull requests in a request trace. -/
def countPulls (trace : List (String × Nat)) : Nat :=
  (trace.filter fun c => decide (c.1 = "vehicles")).length

namespace GAS

/-- A backend sheet: the header row and the data rows below it. -/
structure Sheet where
  headers : List String
  rows : List (List Value)
deriving DecidableEq, Repr

/-- The record a row produces in getAllVehicles and friends: headers
zipped against the row cells. -/
def rowToRecord (headers : List String) (row : List Value) : Record :=
  headers.zip row

/-- new Date(x) as an epoch-millisecond time: numbers map to
themselves, strings go through the date parser (none for an invalid
date), undefined is an invalid date. -/
def jsDate (parse : String → Option Int) (v : Option Value) : Option Int :=
  match v with
  | some (.num n) => some n
  | some (.str s) => parse s
  | none => none

/-- The comparison rowTime greater-or-equal since of the backend scan
filters; a comparison against an invalid date is false. -/
def dateGE (t : Option Int) (since : Int) : Bool :=
  match t with
  | some n => decide (since ≤ n)
  | none => false

/-- The filter predicate of getAllVehicles: keep everything when no
since filter is given, otherwise keep rows whose last_updated parses to
a time greater than or equal to since. -/
def sinceFilterVehicles (parse : String → Option Int) (since : Option Int)
    (vehicle : Record) : Bool :=
  match since with
  | none => true
  | some s => dateGE (jsDate parse (getField vehicle "last_updated")) s

/-- The filter predicate of getAllMaintenance (and of the receipts and
reminders scans): the freshness field is created_date. -/
def sinceFilterCreated (parse : String → Option Int) (since : Option Int)
    (record : Record) : Bool :=
  match since with
  | none => true
  | some s => dateGE (jsDate parse (getField record "created_date")) s

/-- getAllVehicles (gas/code.gs lines 534-550): turn each data row into
a record via the header row, keeping rows that pass the since filter on
last_updated. -/
def getAllVehicles (parse : String → Option Int) (sheet : Sheet)
    (since : Option Int) : List Record :=
  (sheet.rows.map (rowToRecord sheet.headers)).filter (sinceFilterVehicles parse since)

/-- getAllMaintenance (gas/code.gs lines 634-652): like getAllVehicles
with created_date as the freshness field. -/
def getAllMaintenance (parse : String → Option Int) (sheet : Sheet)
    (since : Option Int) : List Record :=
  (sheet.rows.map (rowToRecord sheet.headers)).filter (sinceFilterCreated parse since)

/-- JS truthiness of a primitive value: the empty string and zero are
falsy. -/
def falsy (v : Value) : Bool :=
  match v with
  | .str s => s = ""
  | .num n => n = 0

/-- The JS idiom x or-else d for an optional field value. -/
def jsOrDefault (v : Option Value) (d : Value) : Value :=
  match v with
  | some x => if falsy x then d else x
  | none => d

/-- The JS idiom x or-else the empty string, as in data.make or
vehicle[header] fallbacks. -/
def jsOrEmpty (v : Option Value) : Value :=
  jsOrDefault v (Value.str "")

/-- The header rows installed by setupVehicleSheet. -/
def vehiclesHeaders : List String :=
  ["vehicle_id", "make", "model", "year", "vin", "license_plate",
   "current_mileage", "purchase_date", "warranty_expiration",
   "insurance_expiration", "registration_expiration", "created_date", "last_updated"]

def maintenanceHeaders : List String :=
  ["log_id", "vehicle_id", "maintenance_type", "service_date", "mileage",
   "cost", "service_provider", "description", "next_service_mileage",
   "next_service_date", "receipt_id", "created_date"]

def receiptsHeaders : List String :=
  ["receipt_id", "vehicle_id", "log_id", "receipt_date", "vendor",
   "amount", "description", "image_url", "category", "created_date"]

def remindersHeaders : List String :=
  ["reminder_id", "vehicle_id", "reminder_type", "due_date", "due_mileage",
   "status", "message", "created_date"]

/-- The row of cells appended to the sheet: for each header, the record
field or-else the empty string. -/
def rowValues (headers : List String) (rec : Record) : List Value :=
  headers.map fun h => jsOrEmpty (getField rec h)

/-- Backend addVehicle (gas/code.gs lines 557-579): the stored vehicle
record.  The vehicle_id is generateId() — a fresh server-side UUID,
passed in here as genId — and every field of the request payload other
than the listed descriptive fields, including any client-supplied
vehicle_id, is discarded. -/
def addVehicle (genId now : String) (data : Record) : Record :=
  [("vehicle_id", Value.str genId),
   ("make", jsOrEmpty (getField data "make")),
   ("model", jsOrEmpty (getField data "model")),
   ("year", jsOrEmpty (getField data "year")),
   ("vin", jsOrEmpty (getField data "vin")),
   ("license_plate", jsOrEmpty (getField data "license_plate")),
   ("current_mileage", jsOrEmpty (getField data "current_mileage")),
   ("purchase_date", jsOrEmpty (getField data "purchase_date")),
   ("warranty_expiration", jsOrEmpty (getField data "warranty_expiration")),
   ("insurance_expiration", jsOrEmpty (getField data "insurance_expiration")),
   ("registration_expiration", jsOrEmpty (getField data "registration_expiration")),
   ("created_date", Value.str now),
   ("last_updated", Value.str now)]

/-- Backend addMaintenance (gas/code.gs lines 659-680): log_id is the
fresh server-side UUID. -/
def addMaintenance (genId now : String) (data : Record) : Record :=
  [("log_id", Value.str genId),
   ("vehicle_id", jsOrEmpty (getField data "vehicle_id")),
   ("maintenance_type", jsOrEmpty (getField data "maintenance_type")),
   ("service_date", jsOrEmpty (getField data "service_date")),
   ("mileage", jsOrEmpty (getField data "mileage")),
   ("cost", jsOrEmpty (getField data "cost")),
   ("service_provider", jsOrEmpty (getField data "service_provider")),
   ("description", jsOrEmpty (getField data "description")),
   ("next_service_mileage", jsOrEmpty (getField data "next_service_mileage")),
   ("next_service_date", jsOrEmpty (getField data "next_service_date")),
   ("receipt_id", jsOrEmpty (getField data "receipt_id")),
   ("created_date", Value.str now)]

/-- Backend addReceipt (gas/code.gs lines 722-741): receipt_id is the
fresh server-side UUID. -/
def addReceipt (genId now : String) (data : Record) : Record :=
  [("receipt_id", Value.str genId),
   ("vehicle_id", jsOrEmpty (getField data "vehicle_id")),
   ("log_id", jsOrEmpty (getField data "log_id")),
   ("receipt_date", jsOrEmpty (getField data "receipt_date")),
   ("vendor", jsOrEmpty (getField data "vendor")),
   ("amount", jsOrEmpty (getField data "amount")),
   ("description", jsOrEmpty (getField data "description")),
   ("image_url", jsOrEmpty (getField data "image_url")),
   ("category", jsOrEmpty (getField data "category")),
   ("created_date", Value.str now)]

/-- Backend addReminder (gas/code.gs lines 778-795): reminder_id is the
fresh server-side UUID; status falls back to active. -/
def addReminder (genId now : String) (data : Record) : Record :=
  [("reminder_id", Value.str genId),
   ("vehicle_id", jsOrEmpty (getField data "vehicle_id")),
   ("reminder_type", jsOrEmpty (getField data "reminder_type")),
   ("due_date", jsOrEmpty (getField data "due_date")),
   ("due_mileage", jsOrEmpty (getField data "due_mileage")),
   ("status", jsOrDefault (getField data "status") (Value.str "active")),
   ("message", jsOrEmpty (getField data "message")),
   ("created_date", Value.str now)]

end GAS

/-! Sample data used by the concrete witnesses and counterexamples. -/

def c1Local : Record := [("id", .str "1"), ("a", .str "x"), ("b", .str "y")]

def c1Remote : Record := [("id", .str "1"), ("a", .str "z")]

def c2r1 : Record := [("id", .str "1"), ("a", .str "1")]

def c2r2 : Record := [("id", .str "1"), ("a", .str "2")]

def c2wL : List Record := [[("id", .str "1"), ("a", .str "x")]]

def c2wR : List Record := [[("id", .str "1"), ("a", .str "z")], [("id", .str "2"), ("b", .str "w")]]

def c3Vehicle : Record := [("vehicle_id", .str "v1"), ("make", .str "Ford")]

/-- A network on which every fetch is a transport failure. -/
def failNet : Network := fun _ _ => .netFail "Failed to fetch"

/-- A network whose vehicles pull succeeds and still carries the row of
the vehicle deleted locally (its remote delete having failed). -/
def c3Net : Network := fun action _ =>
  if action = "vehicles" then
    .reply true "OK" { status := some "success", message := none, data := some [c3Vehicle] }
  else
    .netFail "Failed to fetch"

/-- A network on which every request succeeds on its first attempt with
an empty collection. -/
def healthyNet : Network := fun _ _ =>
  .reply true "OK" { status := some "success", message := none, data := some [] }

def c10L : List Record := [[("id", .str "1"), ("a", .str "x")]]

def c10r1 : Record := [("id", .str "7"), ("a", .str "p")]

def c10r2 : Record := [("id", .str "7"), ("a", .str "q")]

/-- A date parser for samples that never parse strings (all sample
timestamps are numeric). -/
def parse0 : String → Option Int := fun _ => none

/-- One vehicle row whose last_updated sits exactly on the filter
boundary. -/
def boundarySheet : GAS.Sheet :=
  { headers := ["vehicle_id", "last_updated"]
    rows := [[.str "1", .num 1000]] }

/-- Vehicles seeded at T0 = 0 ms and T0 + 10 s. -/
def demoSheetV : GAS.Sheet :=
  { headers := ["vehicle_id", "last_updated"]
    rows := [[.str "1", .num 0], [.str "2", .num 10000]] }

/-- Maintenance rows seeded at T0 = 0 ms and T0 + 10 s. -/
def demoSheetM : GAS.Sheet :=
  { headers := ["log_id", "created_date"]
    rows := [[.str "1", .num 0], [.str "2", .num 10000]] }

def c8Data : Record := [("make", .str "Ford"), ("model", .str "F150"), ("year", .num 2020)]

def c9VehicleData : Record := [("vehicle_id", .str "client-1"), ("make", .str "Ford")]

def c9MaintenanceData : Record := [("log_id", .str "client-2"), ("cost", .num 50)]

def c9ReceiptData : Record := [("receipt_id", .str "client-3"), ("vendor", .str "Shop")]

def c9ReminderData : Record := [("reminder_id", .str "client-4"), ("message", .str "Oil")]

section SpreadLemmas

theorem getField_append (a b : Record) (f : String) :
    getField (a ++ b) f = match getField a f with
      | some v => some v
      | none => getField b f := by
  induction a with
  | nil => simp [getField]
  | cons p rest ih =>
    by_cases h : p.1 = f
    · simp [getField, h]
    · simp [getField, h, ih]

theorem getField_map_overlay (a b : Record) (f : String) :
    getField (a.map (overlayPair b)) f =
      match getField a f with
      | none => none
      | some v => match getField b f with
        | some w => some w
        | none => some v := by
  induction a with
  | nil => simp [getField]
  | cons p rest ih =>
    by_cases h : p.1 = f
    · cases hb : getField b p.1 <;>
        simp [getField, overlayPair, h, hb, h ▸ hb]
    · cases hb : getField b p.1 <;>
        simp [getField, overlayPair, h, hb, ih]

theorem getField_filter_none (a b : Record) (f : String) (ha : getField a f = none) :
    getField (b.filter (fun p => (getField a p.1).isNone)) f = getField b f := by
  induction b with
  | nil => rfl
  | cons p rest ih =>
    by_cases h : p.1 = f
    · subst h
      simp [List.filter, ha, getField, ih]
    · by_cases hk : (getField a p.1).isNone <;>
        simp [List.filter, hk, getField, h, ih]

theorem getField_filter_some (a b : Record) (f : String) (v : Value)
    (ha : getField a f = some v) :
    getField (b.filter (fun p => (getField a p.1).isNone)) f = none := by
  induction b with
  | nil => rfl
  | cons p rest ih =>
    by_cases h : p.1 = f
    · subst h
      simp [List.filter, ha, ih]
    · by_cases hk : (getField a p.1).isNone <;>
        simp [List.filter, hk, getField, h, ih]

/-- Field lookup after a JS spread: the overlay wins where it states the
field, otherwise the base value survives. -/
theorem getField_spread (a b : Record) (f : String) :
    getField (spread a b) f = match getField b f with
      | some v => some v
      | none => getField a f := by
  unfold spread
  rw [getField_append, getField_map_overlay]
  cases ha : getField a f with
  | none =>
    cases hb : getField b f with
    | none => simp [getField_filter_none a b f ha, hb]
    | some w => simp [getField_filter_none a b f ha, hb]
  | some v =>
    cases hb : getField b f with
    | none => simp
    | some w => simp

end SpreadLemmas

section ListHelpers

variable {α β : Type}

theorem getD_map (f : α → β) :
    ∀ (l : List α) (i : Nat) (d : α),
      (l.map f).getD i (f d) = f (l.getD i d) := by
  intro l
  induction l with
  | nil => intro i d; simp [List.getD]
  | cons x rest ih =>
    intro i d
    cases i with
    | zero => simp
    | succ j => simp only [List.map_cons, List.getD_cons_succ]; exact ih j d

theorem getD_append_left {xs : List α} (ys : List α) (d : α)
    {i : Nat} (h : i < xs.length) : (xs ++ ys).getD i d = xs.getD i d := by
  induction xs generalizing i with
  | nil => simp at h
  | cons x rest ih =>
    cases i with
    | zero => simp
    | succ j =>
      have hj : j < rest.length := by simpa using h
      simpa using ih hj

theorem getD_append_add {xs : List α} (ys : List α) (d : α) (j : Nat) :
    (xs ++ ys).getD (xs.length + j) d = ys.getD j d := by
  induction xs with
  | nil => simp
  | cons x rest ih => simpa [Nat.succ_add] using ih

theorem set_append_left {xs : List α} (ys : List α) (v : α)
    {i : Nat} (h : i < xs.length) : (xs ++ ys).set i v = xs.set i v ++ ys := by
  induction xs generalizing i with
  | nil => simp at h
  | cons x rest ih =>
    cases i with
    | zero => simp
    | succ j =>
      have hj : j < rest.length := by simpa using h
      simp [List.set, ih hj]

theorem set_append_add {xs : List α} (ys : List α) (v : α) (j : Nat) :
    (xs ++ ys).set (xs.length + j) v = xs ++ ys.set j v := by
  induction xs with
  | nil => simp
  | cons x rest ih => simp [Nat.succ_add, List.set, ih]

theorem map_set (f : α → β) :
    ∀ (l : List α) (i : Nat) (v : α),
      (l.set i v).map f = (l.map f).set i (f v) := by
  intro l
  induction l with
  | nil => intro i v; simp
  | cons x rest ih =>
    intro i v
    cases i with
    | zero => simp
    | succ j => simp [List.set, ih]

theorem set_getD_self (l : List α) (d : α) :
    ∀ (i : Nat), l.set i (l.getD i d) = l := by
  induction l with
  | nil => intro i; simp
  | cons x rest ih =>
    intro i
    cases i with
    | zero => simp
    | succ j =>
      simp only [List.getD_cons_succ]
      show x :: rest.set j (rest.getD j d) = x :: rest
      rw [ih j]

theorem getD_set_eq (l : List α) (d v : α) :
    ∀ (i : Nat), i < l.length → (l.set i v).getD i d = v := by
  induction l with
  | nil => intro i h; simp at h
  | cons x rest ih =>
    intro i h
    cases i with
    | zero => simp
    | succ j =>
      have hj : j < rest.length := by simpa using h
      simpa [List.set] using ih j hj

theorem getD_set_ne (l : List α) (d v : α) :
    ∀ (i j : Nat), i ≠ j → (l.set i v).getD j d = l.getD j d := by
  induction l with
  | nil => intro i j _; simp
  | cons x rest ih =>
    intro i j hij
    cases i with
    | zero =>
      cases j with
      | zero => exact absurd rfl hij
      | succ jj => simp [List.set]
    | succ ii =>
      cases j with
      | zero => simp [List.set]
      | succ jj =>
        have : ii ≠ jj := fun h => hij (by rw [h])
        simpa [List.set] using ih ii jj this

theorem findIndex_some_lt {p : Record → Bool} :
    ∀ {xs : List Record} {i : Nat}, findIndex p xs = some i → i < xs.length := by
  intro xs
  induction xs with
  | nil => intro i h; simp [findIndex] at h
  | cons x rest ih =>
    intro i h
    by_cases hp : p x
    · simp [findIndex, hp] at h
      simp only [List.length_cons]
      omega
    · simp [findIndex, hp] at h
      obtain ⟨j, hj, hji⟩ := h
      have := ih hj
      simp only [List.length_cons]
      omega

theorem findIndex_pred_at {p : Record → Bool} (d : Record) :
    ∀ {xs : List Record} {i : Nat}, findIndex p xs = some i → p (xs.getD i d) = true := by
  intro xs
  induction xs with
  | nil => intro i h; simp [findIndex] at h
  | cons x rest ih =>
    intro i h
    by_cases hp : p x
    · simp [findIndex, hp] at h
      subst h
      simpa using hp
    · simp [findIndex, hp] at h
      obtain ⟨j, hj, hji⟩ := h
      subst hji
      simpa using ih hj

theorem findIndex_append_some {p : Record → Bool} (ys : List Record) :
    ∀ {xs : List Record} {i : Nat}, findIndex p xs = some i →
      findIndex p (xs ++ ys) = some i := by
  intro xs
  induction xs with
  | nil => intro i h; simp [findIndex] at h
  | cons x rest ih =>
    intro i h
    by_cases hp : p x
    · simp [findIndex, hp] at h
      simp [findIndex, hp, h]
    · simp [findIndex, hp] at h
      obtain ⟨j, hj, hji⟩ := h
      simp [findIndex, hp, ih hj, hji]

theorem findIndex_exists_of_mem {p : Record → Bool} :
    ∀ {xs : List Record}, (∃ x ∈ xs, p x = true) → ∃ i, findIndex p xs = some i := by
  intro xs
  induction xs with
  | nil => intro h; obtain ⟨x, hx, _⟩ := h; simp at hx
  | cons y rest ih =>
    intro h
    by_cases hp : p y
    · exact ⟨0, by simp [findIndex, hp]⟩
    · obtain ⟨x, hx, hpx⟩ := h
      rcases List.mem_cons.mp hx with rfl | hx
      · exact absurd hpx hp
      · obtain ⟨j, hj⟩ := ih ⟨x, hx, hpx⟩
        exact ⟨j + 1, by simp [findIndex, hp, hj]⟩

theorem findIndex_eq_none {p : Record → Bool} :
    ∀ {xs : List Record}, (∀ x ∈ xs, p x = false) → findIndex p xs = none := by
  intro xs
  induction xs with
  | nil => intro _; rfl
  | cons y rest ih =>
    intro h
    have hy : p y = false := h y (by simp)
    simp [findIndex, hy, ih fun x hx => h x (List.mem_cons_of_mem y hx)]

theorem findIndex_append_none {p : Record → Bool} {xs : List Record} (ys : List Record)
    (h : findIndex p xs = none) :
    findIndex p (xs ++ ys) = (findIndex p ys).map (· + xs.length) := by
  induction xs with
  | nil => simp
  | cons x rest ih =>
    by_cases hp : p x
    · simp [findIndex, hp] at h
    · simp only [findIndex, hp] at h
      have h2 : findIndex p rest = none := by
        cases hfi : findIndex p rest with
        | none => rfl
        | some j => rw [hfi] at h; simp at h
      rw [List.cons_append]
      show (if p x then some 0 else (findIndex p (rest ++ ys)).map (· + 1))
        = (findIndex p ys).map (· + (x :: rest).length)
      rw [if_neg (by simp [hp]), ih h2]
      cases findIndex p ys with
      | none => rfl
      | some j => simp [List.length_cons, Nat.add_assoc]

theorem findIndex_eq_of_map_pred {p : Record → Bool} :
    ∀ {xs ys : List Record}, xs.map p = ys.map p → findIndex p xs = findIndex p ys := by
  intro xs
  induction xs with
  | nil =>
    intro ys h
    cases ys with
    | nil => rfl
    | cons y t => simp at h
  | cons x rest ih =>
    intro ys h
    cases ys with
    | nil => simp at h
    | cons y t =>
      simp only [List.map_cons, List.cons.injEq] at h
      by_cases hp : p x
      · simp [findIndex, hp, h.1 ▸ hp]
      · have hy : p y = false := by rw [← h.1]; simpa using hp
        simp [findIndex, hp, hy, ih h.2]

/-- When the id values of a list are pairwise distinct, the first index
matching the id of a member holds exactly that member. -/
theorem findIndex_getD_of_nodup {k : String} {B : List Record} {r : Record}
    (hnd : (B.map fun x => getField x k).Nodup) (hr : r ∈ B) {j : Nat}
    (hj : findIndex (fun item => decide (getField item k = getField r k)) B = some j) :
    B.getD j [] = r := by
  induction B generalizing j with
  | nil => simp [findIndex] at hj
  | cons b rest ih =>
    by_cases hp : getField b k = getField r k
    · simp [findIndex, hp] at hj
      subst hj
      rcases List.mem_cons.mp hr with rfl | hmem
      · simp
      · exfalso
        have : getField r k ∈ rest.map fun x => getField x k :=
          List.mem_map.mpr ⟨r, hmem, rfl⟩
        rw [← hp] at this
        exact (List.nodup_cons.mp hnd).1 this
    · simp [findIndex, hp] at hj
      obtain ⟨j0, hj0, hj0i⟩ := hj
      subst hj0i
      have hmem : r ∈ rest := by
        rcases List.mem_cons.mp hr with rfl | hmem
        · exact absurd rfl hp
        · exact hmem
      simpa using ih (List.nodup_cons.mp hnd).2 hmem hj0

end ListHelpers

section MergeClosedForm

/-- Spreading a remote record over a record carrying the same id value
leaves the id lookup unchanged. -/
theorem spread_preserves_id {a r : Record} {k : String}
    (h : getField a k = getField r k) : getField (spread a r) k = getField a k := by
  rw [getField_spread]
  cases hr : getField r k with
  | none => rfl
  | some v => rw [h, hr]

/-- updFirst keeps the positional id map of the list unchanged. -/
theorem updFirst_map_getField (k : String) (xs : List Record) (r : Record) :
    (updFirst k xs r).map (fun x => getField x k) = xs.map (fun x => getField x k) := by
  unfold updFirst
  cases hfi : findIndex (fun item => decide (getField item k = getField r k)) xs with
  | none => rfl
  | some i =>
    have hlt := findIndex_some_lt hfi
    have hpred := findIndex_pred_at ([] : Record) hfi
    have hid : getField (xs.getD i []) k = getField r k := by
      simpa using hpred
    rw [map_set]
    have hv : getField (spread (xs.getD i []) r) k = getField (xs.getD i []) k :=
      spread_preserves_id hid
    rw [hv, ← getD_map (fun x => getField x k) xs i []]
    exact set_getD_self _ _ i

theorem updFirst_length (k : String) (xs : List Record) (r : Record) :
    (updFirst k xs r).length = xs.length := by
  unfold updFirst
  cases hfi : findIndex (fun item => decide (getField item k = getField r k)) xs with
  | none => rfl
  | some i => simp

theorem foldl_updFirst_map_getField (k : String) :
    ∀ (Q : List Record) (P : List Record),
      (Q.foldl (updFirst k) P).map (fun x => getField x k) =
        P.map (fun x => getField x k) := by
  intro Q
  induction Q with
  | nil => intro P; rfl
  | cons q rest ih =>
    intro P
    simp only [List.foldl_cons]
    rw [ih, updFirst_map_getField]

theorem foldl_updFirst_length (k : String) :
    ∀ (Q : List Record) (P : List Record),
      (Q.foldl (updFirst k) P).length = P.length := by
  intro Q
  induction Q with
  | nil => intro P; rfl
  | cons q rest ih =>
    intro P
    simp only [List.foldl_cons]
    rw [ih, updFirst_length]

/-- The merge fold splits: the in-place updates stay inside the prefix
carrying the original local ids, the appends accumulate after the
suffix, and membership is always decided against the original local id
list lids. -/
theorem foldl_mergeStep_split (k : String) (lids : List (Option Value)) :
    ∀ (R P S : List Record), P.map (fun x => getField x k) = lids →
      R.foldl (mergeStep lids k) (P ++ S) =
        ((R.filter fun r => decide (getField r k ∈ lids)).foldl (updFirst k) P)
          ++ (S ++ (R.filter fun r => decide (getField r k ∉ lids))) := by
  intro R
  induction R with
  | nil => intro P S _; simp
  | cons r rest ih =>
    intro P S hP
    by_cases hmem : getField r k ∈ lids
    · have hstep : mergeStep lids k (P ++ S) r = updFirst k P r ++ S := by
        have hex : ∃ x ∈ P, (fun item => decide (getField item k = getField r k)) x = true := by
          rw [← hP] at hmem
          obtain ⟨x, hx, hxk⟩ := List.mem_map.mp hmem
          exact ⟨x, hx, by simp [hxk]⟩
        obtain ⟨i, hi⟩ := findIndex_exists_of_mem hex
        have hlt := findIndex_some_lt hi
        have happ := findIndex_append_some S hi
        unfold mergeStep updFirst
        rw [if_neg (by simpa using hmem), happ, hi]
        show (P ++ S).set i (spread ((P ++ S).getD i []) r)
          = P.set i (spread (P.getD i []) r) ++ S
        rw [getD_append_left S [] hlt, set_append_left S _ hlt]
      rw [List.foldl_cons, hstep,
        ih (updFirst k P r) S (by rw [updFirst_map_getField, hP])]
      simp [hmem]
    · have hstep : mergeStep lids k (P ++ S) r = P ++ (S ++ [r]) := by
        unfold mergeStep
        rw [if_pos (by simpa using hmem)]
        simp
      rw [List.foldl_cons, hstep, ih P (S ++ [r]) hP]
      simp [hmem]

/-- Closed form of mergeData: the first-match in-place remote updates
folded over the local list, followed by exactly the remote items whose
id is absent from the original local id list, in remote order. -/
theorem mergeData_closed (L R : List Record) (k : String) :
    mergeData L R k =
      ((R.filter fun r =>
          decide (getField r k ∈ L.map fun x => getField x k)).foldl (updFirst k) L)
        ++ (R.filter fun r =>
          decide (getField r k ∉ L.map fun x => getField x k)) := by
  have h := foldl_mergeStep_split k (L.map fun x => getField x k) R L [] rfl
  simpa [mergeData] using h

end MergeClosedForm

section MergeIdempotence

theorem map_id_of_all {α : Type} {l : List α} {f : α → α} (h : ∀ x ∈ l, f x = x) :
    l.map f = l := by
  induction l with
  | nil => rfl
  | cons x rest ih =>
    rw [List.map_cons, h x (by simp), ih fun y hy => h y (List.mem_cons_of_mem x hy)]

/-- In a record with pairwise-distinct keys, looking any member pair's key
up yields that pair's value. -/
theorem getField_of_mem_nodup {b : Record} (hnd : (b.map Prod.fst).Nodup) :
    ∀ {p : String × Value}, p ∈ b → getField b p.1 = some p.2 := by
  induction b with
  | nil => intro p hp; simp at hp
  | cons q rest ih =>
    intro p hp
    rcases List.mem_cons.mp hp with rfl | hmem
    · simp [getField]
    · have hne : q.1 ≠ p.1 := by
        intro h
        have : p.1 ∈ rest.map Prod.fst := List.mem_map.mpr ⟨p, hmem, rfl⟩
        rw [← h] at this
        exact (List.nodup_cons.mp hnd).1 this
      simp [getField, hne, ih (List.nodup_cons.mp hnd).2 hmem]

theorem overlay_overlay (b : Record) (p : String × Value) :
    overlayPair b (overlayPair b p) = overlayPair b p := by
  unfold overlayPair
  cases h : getField b p.1 with
  | none => simp [h]
  | some v => simp [h]

/-- Spreading the same overlay twice changes nothing beyond the first
spread, provided the overlay record has pairwise-distinct keys. -/
theorem spread_spread (a b : Record) (hb : (b.map Prod.fst).Nodup) :
    spread (spread a b) b = spread a b := by
  have hmap : (spread a b).map (overlayPair b) = spread a b := by
    apply map_id_of_all
    intro q hq
    rcases List.mem_append.mp hq with hq1 | hq2
    · obtain ⟨p, _, rfl⟩ := List.mem_map.mp hq1
      exact overlay_overlay b p
    · have hqb : q ∈ b := (List.mem_filter.mp hq2).1
      unfold overlayPair
      rw [getField_of_mem_nodup hb hqb]
  have hfil : b.filter (fun p => (getField (spread a b) p.1).isNone) = [] := by
    rw [List.filter_eq_nil_iff]
    intro p hp
    have : getField (spread a b) p.1 = some p.2 := by
      rw [getField_spread, getField_of_mem_nodup hb hp]
    simp [this]
  calc spread (spread a b) b
      = (spread a b).map (overlayPair b)
          ++ b.filter (fun p => (getField (spread a b) p.1).isNone) := rfl
    _ = spread a b := by rw [hmap, hfil, List.append_nil]

theorem spread_self (r : Record) (h : (r.map Prod.fst).Nodup) : spread r r = r := by
  have hmap : r.map (overlayPair r) = r :=
    map_id_of_all fun q hq => by
      unfold overlayPair
      rw [getField_of_mem_nodup h hq]
  have hfil : r.filter (fun p => (getField r p.1).isNone) = [] := by
    rw [List.filter_eq_nil_iff]
    intro p hp
    simp [getField_of_mem_nodup h hp]
  calc spread r r
      = r.map (overlayPair r) ++ r.filter (fun p => (getField r p.1).isNone) := rfl
    _ = r := by rw [hmap, hfil, List.append_nil]

theorem updFirst_of_none {k : String} {xs : List Record} {r : Record}
    (h : findIndex (fun item => decide (getField item k = getField r k)) xs = none) :
    updFirst k xs r = xs := by
  unfold updFirst
  rw [h]

theorem updFirst_of_some {k : String} {xs : List Record} {r : Record} {i : Nat}
    (h : findIndex (fun item => decide (getField item k = getField r k)) xs = some i) :
    updFirst k xs r = xs.set i (spread (xs.getD i []) r) := by
  unfold updFirst
  rw [h]

/-- Any id-based predicate map is untouched by updFirst. -/
theorem updFirst_map_idpred (k : String) (xs : List Record) (q : Record) (w : Option Value) :
    (updFirst k xs q).map (fun item => decide (getField item k = w)) =
      xs.map (fun item => decide (getField item k = w)) := by
  have e1 : ∀ (l : List Record),
      l.map (fun item => decide (getField item k = w)) =
        (l.map fun x => getField x k).map (fun o => decide (o = w)) := by
    intro l
    rw [List.map_map]
    rfl
  rw [e1, e1, updFirst_map_getField]

theorem findIndex_updFirst_other (k : String) (xs : List Record) (q r : Record) :
    findIndex (fun item => decide (getField item k = getField r k)) (updFirst k xs q) =
      findIndex (fun item => decide (getField item k = getField r k)) xs :=
  findIndex_eq_of_map_pred (updFirst_map_idpred k xs q (getField r k))

/-- Re-applying the same remote patch to a list is a no-op after the
first application, provided the patch record has distinct keys. -/
theorem updFirst_idem (k : String) (xs : List Record) (r : Record)
    (hr : (r.map Prod.fst).Nodup) :
    updFirst k (updFirst k xs r) r = updFirst k xs r := by
  cases hfi : findIndex (fun item => decide (getField item k = getField r k)) xs with
  | none =>
    rw [updFirst_of_none hfi]
    exact updFirst_of_none hfi
  | some i =>
    have hlt := findIndex_some_lt hfi
    have h1 := updFirst_of_some hfi
    have hfi2 : findIndex (fun item => decide (getField item k = getField r k))
        (xs.set i (spread (xs.getD i []) r)) = some i := by
      rw [← h1, findIndex_updFirst_other]
      exact hfi
    rw [h1, updFirst_of_some hfi2, getD_set_eq xs [] _ i hlt,
      spread_spread _ r hr, List.set_set]

/-- Updates for two different id values commute. -/
theorem updFirst_comm (k : String) (xs : List Record) (q r : Record)
    (hqr : getField q k ≠ getField r k) :
    updFirst k (updFirst k xs q) r = updFirst k (updFirst k xs r) q := by
  cases hfq : findIndex (fun item => decide (getField item k = getField q k)) xs with
  | none =>
    have hq2 : findIndex (fun item => decide (getField item k = getField q k))
        (updFirst k xs r) = none := by
      rw [findIndex_updFirst_other]
      exact hfq
    rw [updFirst_of_none hfq, updFirst_of_none hq2]
  | some i =>
    cases hfr : findIndex (fun item => decide (getField item k = getField r k)) xs with
    | none =>
      have hr2 : findIndex (fun item => decide (getField item k = getField r k))
          (updFirst k xs q) = none := by
        rw [findIndex_updFirst_other]
        exact hfr
      rw [updFirst_of_none hfr, updFirst_of_none hr2]
    | some j =>
      have hpi : getField (xs.getD i []) k = getField q k := by
        simpa using findIndex_pred_at ([] : Record) hfq
      have hpj : getField (xs.getD j []) k = getField r k := by
        simpa using findIndex_pred_at ([] : Record) hfr
      have hij : i ≠ j := fun h => hqr (by rw [← hpi, h, hpj])
      have h1 := updFirst_of_some hfq
      have h2 := updFirst_of_some hfr
      have hfr2 : findIndex (fun item => decide (getField item k = getField r k))
          (xs.set i (spread (xs.getD i []) q)) = some j := by
        rw [← h1, findIndex_updFirst_other]
        exact hfr
      have hfq2 : findIndex (fun item => decide (getField item k = getField q k))
          (xs.set j (spread (xs.getD j []) r)) = some i := by
        rw [← h2, findIndex_updFirst_other]
        exact hfq
      rw [h1, updFirst_of_some hfr2, h2, updFirst_of_some hfq2,
        getD_set_ne xs [] _ i j hij, getD_set_ne xs [] _ j i (Ne.symm hij)]
      exact List.set_comm _ _ xs hij

/-- A fold of updates over ids all different from the id of q commutes
past an initial update for q. -/
theorem foldl_updFirst_pull (k : String) (q : Record) :
    ∀ (Q : List Record) (xs : List Record),
      (∀ r ∈ Q, getField r k ≠ getField q k) →
      Q.foldl (updFirst k) (updFirst k xs q) = updFirst k (Q.foldl (updFirst k) xs) q := by
  intro Q
  induction Q with
  | nil => intro xs _; rfl
  | cons r rest ih =>
    intro xs h
    have hr : getField r k ≠ getField q k := h r (by simp)
    simp only [List.foldl_cons]
    rw [updFirst_comm k xs q r (Ne.symm hr)]
    exact ih (updFirst k xs r) fun x hx => h x (List.mem_cons_of_mem r hx)

theorem foldl_fix {f : List Record → Record → List Record} {M : List Record} :
    ∀ {R : List Record}, (∀ r ∈ R, f M r = M) → R.foldl f M = M := by
  intro R
  induction R with
  | nil => intro _; rfl
  | cons r rest ih =>
    intro h
    rw [List.foldl_cons, h r (by simp)]
    exact ih fun x hx => h x (List.mem_cons_of_mem r hx)

theorem updFirst_append_left (k : String) (A B : List Record) (r : Record)
    (hex : ∃ x ∈ A, getField x k = getField r k) :
    updFirst k (A ++ B) r = updFirst k A r ++ B := by
  obtain ⟨i, hi⟩ := findIndex_exists_of_mem
    (p := fun item => decide (getField item k = getField r k))
    (by obtain ⟨x, hx, he⟩ := hex; exact ⟨x, hx, by simp [he]⟩)
  have hlt := findIndex_some_lt hi
  rw [updFirst_of_some hi, updFirst_of_some (findIndex_append_some B hi),
    getD_append_left B [] hlt, set_append_left B _ hlt]

theorem updFirst_append_right (k : String) (A B : List Record) (r : Record)
    (hnone : ∀ x ∈ A, getField x k ≠ getField r k) :
    updFirst k (A ++ B) r = A ++ updFirst k B r := by
  have hA : findIndex (fun item => decide (getField item k = getField r k)) A = none :=
    findIndex_eq_none fun x hx => by simpa using hnone x hx
  cases hB : findIndex (fun item => decide (getField item k = getField r k)) B with
  | none =>
    rw [updFirst_of_none hB,
      updFirst_of_none (by rw [findIndex_append_none B hA, hB]; rfl)]
  | some j =>
    have hsome : findIndex (fun item => decide (getField item k = getField r k)) (A ++ B)
        = some (j + A.length) := by
      rw [findIndex_append_none B hA, hB]
      rfl
    rw [updFirst_of_some hsome, updFirst_of_some hB, Nat.add_comm j A.length,
      getD_append_add B [] j, set_append_add B _ j]

/-- The merged list absorbs every remote patch a second time: with
pairwise-distinct remote ids and duplicate-free remote records, each
remote item fixes the merge result. -/
theorem updFirst_fix_merged (L R : List Record) (k : String)
    (hids : (R.map fun r => getField r k).Nodup)
    (hkeys : ∀ r ∈ R, (r.map Prod.fst).Nodup)
    (r : Record) (hr : r ∈ R) :
    updFirst k (mergeData L R k) r = mergeData L R k := by
  rw [mergeData_closed L R k]
  by_cases hmem : getField r k ∈ L.map fun x => getField x k
  · have hrin : r ∈ R.filter (fun x => decide (getField x k ∈ L.map fun y => getField y k)) :=
      List.mem_filter.mpr ⟨hr, by simp [hmem]⟩
    obtain ⟨X, Y, hXY⟩ := List.append_of_mem hrin
    have hsub : List.Sublist
        ((R.filter (fun x => decide (getField x k ∈ L.map fun y => getField y k))).map
          fun x => getField x k)
        (R.map fun x => getField x k) := (List.filter_sublist R).map _
    have hndin := hids.sublist hsub
    have hY : ∀ y ∈ Y, getField y k ≠ getField r k := by
      intro y hy hcontra
      rw [hXY, List.map_append, List.map_cons] at hndin
      exact absurd (List.mem_map.mpr ⟨y, hy, hcontra⟩)
        ((List.nodup_cons.mp (List.nodup_append.mp hndin).2.1).1)
    have hA : (R.filter (fun x => decide (getField x k ∈ L.map fun y => getField y k))).foldl
          (updFirst k) L
        = updFirst k (Y.foldl (updFirst k) (X.foldl (updFirst k) L)) r := by
      rw [hXY, List.foldl_append, List.foldl_cons]
      exact foldl_updFirst_pull k r Y _ hY
    have hexA : ∃ x ∈ (R.filter
          (fun x => decide (getField x k ∈ L.map fun y => getField y k))).foldl
          (updFirst k) L, getField x k = getField r k := by
      have hmapA := foldl_updFirst_map_getField k
        (R.filter (fun x => decide (getField x k ∈ L.map fun y => getField y k))) L
      rw [← hmapA] at hmem
      obtain ⟨x, hx, he⟩ := List.mem_map.mp hmem
      exact ⟨x, hx, he⟩
    rw [updFirst_append_left k _ _ r hexA, hA, updFirst_idem k _ r (hkeys r hr)]
  · have hrout : r ∈ R.filter (fun x => decide (getField x k ∉ L.map fun y => getField y k)) :=
      List.mem_filter.mpr ⟨hr, by simp [hmem]⟩
    have hmapA := foldl_updFirst_map_getField k
      (R.filter (fun x => decide (getField x k ∈ L.map fun y => getField y k))) L
    have hnotinA : ∀ x ∈ (R.filter
          (fun x => decide (getField x k ∈ L.map fun y => getField y k))).foldl
          (updFirst k) L, getField x k ≠ getField r k := by
      intro x hx he
      apply hmem
      rw [← he, ← hmapA]
      exact List.mem_map.mpr ⟨x, hx, rfl⟩
    have hsub : List.Sublist
        ((R.filter (fun x => decide (getField x k ∉ L.map fun y => getField y k))).map
          fun x => getField x k)
        (R.map fun x => getField x k) := (List.filter_sublist R).map _
    have hndout := hids.sublist hsub
    obtain ⟨j, hj⟩ := findIndex_exists_of_mem
      (p := fun item => decide (getField item k = getField r k))
      ⟨r, hrout, by simp⟩
    have hgd := findIndex_getD_of_nodup hndout hrout hj
    rw [updFirst_append_right k _ _ r hnotinA, updFirst_of_some hj, hgd,
      spread_self r (hkeys r hr), ← hgd, set_getD_self _ [] j]

theorem mergeData_ids_superset (L R : List Record) (k : String) :
    ∀ r ∈ R, getField r k ∈ (mergeData L R k).map fun x => getField x k := by
  intro r hr
  rw [mergeData_closed, List.map_append, List.mem_append]
  by_cases hmem : getField r k ∈ L.map fun x => getField x k
  · left
    rw [foldl_updFirst_map_getField]
    exact hmem
  · right
    exact List.mem_map.mpr ⟨r, List.mem_filter.mpr ⟨hr, by simp [hmem]⟩, rfl⟩

end MergeIdempotence

/-- C1.  Remote-field-wins on a shared id: merging a single local record
with a single remote record carrying the same id yields exactly the JS
spread of the two, in which every field stated by the remote record has
the remote value and every field only the local record states keeps its
local value. -/
theorem merge_remote_field_wins (l r : Record) (k : String)
    (h : getField l k = getField r k) :
    mergeData [l] [r] k = [spread l r] ∧
    (∀ f v, getField r f = some v → getField (spread l r) f = some v) ∧
    (∀ f, getField r f = none → getField (spread l r) f = getField l f) := by
  refine ⟨?_, ?_, ?_⟩
  · simp [mergeData, mergeStep, findIndex, h, List.getD]
  · intro f v hf
    rw [getField_spread, hf]
  · intro f hf
    rw [getField_spread, hf]

/-- C1 witness: merging local (id 1, a x, b y) with remote (id 1, a z)
yields the single record (id 1, a z, b y). -/
theorem merge_remote_field_wins_witness :
    getField c1Local "id" = getField c1Remote "id" ∧
    mergeData [c1Local] [c1Remote] "id" =
      [[("id", Value.str "1"), ("a", Value.str "z"), ("b", Value.str "y")]] :=
  ⟨by decide,
   ((merge_remote_field_wins c1Local c1Remote "id" (by decide)).1).trans (by decide)⟩

theorem getD_map_getField (k : String) (l : List Record) (i : Nat) :
    (l.map fun x => getField x k).getD i none = getField (l.getD i []) k := by
  induction l generalizing i with
  | nil => simp [List.getD, getField]
  | cons x rest ih =>
    cases i with
    | zero => simp
    | succ j =>
      simp only [List.map_cons, List.getD_cons_succ]
      exact ih j

/-- C10.  The merge decides membership solely against the id set taken
once from the original local list: the merged list is the locals (with
positional ids unchanged) followed by exactly the remote items whose id
is absent from the original local id list, in remote order — so two
remote items sharing an id absent from local are both appended. -/
theorem merge_keeps_locals_and_appends_by_original_id_set
    (L R : List Record) (k : String) :
    (mergeData L R k).length = L.length +
      (R.filter fun r => decide (getField r k ∉ L.map fun x => getField x k)).length ∧
    (mergeData L R k).drop L.length =
      R.filter (fun r => decide (getField r k ∉ L.map fun x => getField x k)) ∧
    (∀ i, i < L.length →
      getField ((mergeData L R k).getD i []) k = getField (L.getD i []) k) := by
  have hcf := mergeData_closed L R k
  have hlen := foldl_updFirst_length k
    (R.filter fun r => decide (getField r k ∈ L.map fun x => getField x k)) L
  refine ⟨?_, ?_, ?_⟩
  · rw [hcf, List.length_append, hlen]
  · rw [hcf, ← hlen, List.drop_left]
  · intro i hi
    rw [hcf, getD_append_left _ [] (by rw [hlen]; exact hi)]
    calc getField (((R.filter fun r =>
            decide (getField r k ∈ L.map fun x => getField x k)).foldl
            (updFirst k) L).getD i []) k
        = (((R.filter fun r =>
            decide (getField r k ∈ L.map fun x => getField x k)).foldl
            (updFirst k) L).map fun x => getField x k).getD i none :=
          (getD_map_getField k _ i).symm
      _ = (L.map fun x => getField x k).getD i none := by
          rw [foldl_updFirst_map_getField]
      _ = getField (L.getD i []) k := getD_map_getField k L i

/-- C10 witness: local (id 1), remote two items both with the locally
absent id 7: both are appended after the local prefix, so the merged
list has length 3, carries duplicate-id entries, and keeps the local id
at position 0. -/
theorem merge_keeps_locals_witness :
    (mergeData c10L [c10r1, c10r2] "id").drop 1 = [c10r1, c10r2] ∧
    getField c10r1 "id" = getField c10r2 "id" ∧
    (mergeData c10L [c10r1, c10r2] "id").length = 3 ∧
    getField ((mergeData c10L [c10r1, c10r2] "id").getD 0 []) "id"
      = getField (c10L.getD 0 []) "id" := by
  have h := merge_keeps_locals_and_appends_by_original_id_set c10L [c10r1, c10r2] "id"
  refine ⟨h.2.1.trans (by decide), by decide, ?_, h.2.2 0 (by decide)⟩
  rw [h.1]
  decide

/-- C2 counterexample: with a remote list carrying two items of the same
id absent from the (empty) local list, a second merge of the same remote
list mutates the first appended copy, so merge of merge differs from the
single merge. -/
theorem merge_not_idempotent_cex :
    mergeData (mergeData [] [c2r1, c2r2] "id") [c2r1, c2r2] "id"
      ≠ mergeData [] [c2r1, c2r2] "id" := by decide

/-- C2, amended.  The merge is idempotent in its local argument whenever
the remote items carry pairwise-distinct id values and each remote
record has pairwise-distinct field names (both hold for any remote
collection whose rows have unique primary keys): merging the same
remote list into an already merged list changes nothing. -/
theorem merge_idempotent_of_distinct_remote_ids (L R : List Record) (k : String)
    (hids : (R.map fun r => getField r k).Nodup)
    (hkeys : ∀ r ∈ R, (r.map Prod.fst).Nodup) :
    mergeData (mergeData L R k) R k = mergeData L R k := by
  have hsup := mergeData_ids_superset L R k
  have hfin : R.filter (fun r =>
      decide (getField r k ∈ (mergeData L R k).map fun x => getField x k)) = R := by
    rw [List.filter_eq_self]
    intro r hr
    simp [hsup r hr]
  have hfout : R.filter (fun r =>
      decide (getField r k ∉ (mergeData L R k).map fun x => getField x k)) = [] := by
    rw [List.filter_eq_nil_iff]
    intro r hr
    simp [hsup r hr]
  rw [mergeData_closed (mergeData L R k) R k, hfin, hfout, List.append_nil]
  exact foldl_fix fun r hr => updFirst_fix_merged L R k hids hkeys r hr

/-- C2 witness: a local record patched by one remote record of the same
id plus one remote record of a new id — distinct remote ids — where the
second merge is a no-op. -/
theorem merge_idempotent_witness :
    mergeData (mergeData c2wL c2wR "id") c2wR "id" = mergeData c2wL c2wR "id" :=
  merge_idempotent_of_distinct_remote_ids c2wL c2wR "id" (by decide) (by decide)

/-- A remote item whose id is absent from the local id list is a member
of the merge result. -/
theorem mem_merge_of_new_id (L R : List Record) (k : String) (r : Record)
    (hr : r ∈ R) (hnot : getField r k ∉ L.map fun x => getField x k) :
    r ∈ mergeData L R k := by
  rw [mergeData_closed]
  exact List.mem_append_right _ (List.mem_filter.mpr ⟨hr, by simp [hnot]⟩)

/-- The local store deleteVehicle leaves behind, on every branch: the
store with every record of the deleted id filtered out. -/
theorem deleteVehicle_store (cfg : Config) (isOnline : Bool) (vid : Value)
    (store : List Record) (net : Network) :
    (GS.deleteVehicle cfg isOnline vid store net).2.1
      = store.filter fun v => decide (getField v "vehicle_id" ≠ some vid) := by
  simp only [GS.deleteVehicle]
  split
  · split <;> rfl
  · rfl

/-- C3 counterexample: the delete succeeds locally (store emptied) and
fails remotely, and the very next pull, whose remote data still carries
the row, reinstates the deleted record in the local store. -/
theorem delete_resurrection_cex :
    (GS.deleteVehicle GOOGLE_CONFIG true (Value.str "v1") [c3Vehicle] failNet).2.1 = [] ∧
    (GS.deleteVehicle GOOGLE_CONFIG true (Value.str "v1") [c3Vehicle] failNet).1
      = Except.error "Failed to fetch" ∧
    (GS.syncCollection GOOGLE_CONFIG c3Net "vehicles" "vehicle_id"
      (GS.deleteVehicle GOOGLE_CONFIG true (Value.str "v1") [c3Vehicle] failNet).2.1).2.1
      = [c3Vehicle] :=
  ⟨rfl, rfl, rfl⟩

/-- C3, amended.  No tombstone of a delete is kept, so the claim fails:
after a delete that succeeded locally (whatever its remote outcome),
any successful pull whose remote data still carries a row with the
deleted id DOES reintroduce that record into the local store. -/
theorem delete_then_pull_resurrects (cfg cfg2 : Config) (net net2 : Network)
    (isOnline : Bool) (action : String) (store remote : List Record)
    (vid : Value) (r : Record) (envl : Envelope)
    (hr : r ∈ remote) (hid : getField r "vehicle_id" = some vid)
    (hpull : (GS.makeApiRequest cfg2 (net2 action)).1 = Except.ok envl)
    (hdata : envl.data = some remote) :
    r ∈ (GS.syncCollection cfg2 net2 action "vehicle_id"
        ((GS.deleteVehicle cfg isOnline vid store net).2.1)).2.1 := by
  have hdel := deleteVehicle_store cfg isOnline vid store net
  have hsync : (GS.syncCollection cfg2 net2 action "vehicle_id"
        ((GS.deleteVehicle cfg isOnline vid store net).2.1)).2.1
      = mergeData ((GS.deleteVehicle cfg isOnline vid store net).2.1) remote "vehicle_id" := by
    simp [GS.syncCollection, hpull, hdata]
  rw [hsync, hdel]
  apply mem_merge_of_new_id _ _ _ r hr
  intro hmem
  obtain ⟨x, hx, he⟩ := List.mem_map.mp hmem
  have hxne := (List.mem_filter.mp hx).2
  simp only [decide_eq_true_eq] at hxne
  exact hxne (he.trans hid)

/-- C3 witness: the concrete deleted vehicle is a member of the store
the next pull produces. -/
theorem delete_then_pull_resurrects_witness :
    c3Vehicle ∈ (GS.syncCollection GOOGLE_CONFIG c3Net "vehicles" "vehicle_id"
        ((GS.deleteVehicle GOOGLE_CONFIG true (Value.str "v1") [c3Vehicle] failNet).2.1)).2.1 :=
  delete_then_pull_resurrects GOOGLE_CONFIG GOOGLE_CONFIG failNet c3Net true "vehicles"
    [c3Vehicle] [c3Vehicle] (Value.str "v1") c3Vehicle
    { status := some "success", message := none, data := some [c3Vehicle] }
    (by decide) (by decide) rfl rfl

/-- When every attempt fails, the retry loop visits exactly the
attempts it was given, in order, and rejects with the error of the last
one. -/
theorem attemptLoop_all_fail (fetch : Nat → FetchOutcome) (err : Nat → String)
    (h : ∀ n, tryOnce (fetch n) = Except.error (err n)) :
    ∀ (remaining attempt : Nat) (le : Option String), 1 ≤ remaining →
      GS.attemptLoop fetch attempt remaining le
        = (Except.error (err (attempt + remaining - 1)), List.range' attempt remaining) := by
  intro remaining
  induction remaining with
  | zero => intro attempt le h1; exact absurd h1 (by omega)
  | succ rem ih =>
    intro attempt le _
    cases rem with
    | zero =>
      have hstep : GS.attemptLoop fetch attempt 1 le
          = (match tryOnce (fetch attempt) with
             | .ok v => (Except.ok v, [attempt])
             | .error e =>
               ((GS.attemptLoop fetch (attempt + 1) 0 (some e)).1,
                 attempt :: (GS.attemptLoop fetch (attempt + 1) 0 (some e)).2)) := rfl
      rw [hstep, h attempt]
      have harith : attempt + 1 - 1 = attempt := by omega
      rw [harith, List.range'_one]
      rfl
    | succ rem2 =>
      have hih := ih (attempt + 1) (some (err attempt)) (by omega)
      have hstep : GS.attemptLoop fetch attempt (rem2 + 1 + 1) le
          = (match tryOnce (fetch attempt) with
             | .ok v => (Except.ok v, [attempt])
             | .error e =>
               ((GS.attemptLoop fetch (attempt + 1) (rem2 + 1) (some e)).1,
                 attempt :: (GS.attemptLoop fetch (attempt + 1) (rem2 + 1) (some e)).2)) := rfl
      rw [hstep, h attempt]
      show ((GS.attemptLoop fetch (attempt + 1) (rem2 + 1) (some (err attempt))).1,
          attempt :: (GS.attemptLoop fetch (attempt + 1) (rem2 + 1) (some (err attempt))).2)
        = (Except.error (err (attempt + (rem2 + 1 + 1) - 1)), List.range' attempt (rem2 + 1 + 1))
      have harith : attempt + 1 + (rem2 + 1) - 1 = attempt + (rem2 + 1 + 1) - 1 := by omega
      rw [hih, harith]
      rfl

/-- C5.  Against an endpoint failing on every attempt, the client makes
exactly the configured number of attempts — the attempt trace is
precisely 1, 2, 3 under the default configuration, so no fourth attempt
occurs — and then rejects with the error observed on the last attempt;
it never resolves. -/
theorem retry_bound_rejects_with_last_error (fetch : Nat → FetchOutcome)
    (err : Nat → String) (h : ∀ n, tryOnce (fetch n) = Except.error (err n)) :
    GS.makeApiRequest GOOGLE_CONFIG fetch
      = (Except.error (err GOOGLE_CONFIG.retryAttempts), [1, 2, 3]) := by
  have h3 := attemptLoop_all_fail fetch err h 3 1 none (by omega)
  have hne : ¬ (GOOGLE_CONFIG.webAppUrl = "") := by decide
  unfold GS.makeApiRequest
  rw [if_neg hne]
  show GS.attemptLoop fetch 1 3 none = _
  rw [h3]
  rfl

/-- C5 witness: an endpoint whose every fetch is a transport failure is
fetched on attempts 1, 2 and 3 only and the call rejects with that
failure. -/
theorem retry_bound_witness :
    GS.makeApiRequest GOOGLE_CONFIG (fun _ => FetchOutcome.netFail "Failed to fetch")
      = (Except.error "Failed to fetch", [1, 2, 3]) :=
  retry_bound_rejects_with_last_error (fun _ => FetchOutcome.netFail "Failed to fetch")
    (fun _ => "Failed to fetch") (fun _ => rfl)

/-- C6.  When the pull of a collection rejects (after its retries are
exhausted), the local store of that collection is returned unchanged —
no partial merge or write — and the failure propagates. -/
theorem failed_pull_leaves_store_untouched (cfg : Config) (net : Network)
    (action idField : String) (store : List Record) (e : String)
    (h : (GS.makeApiRequest cfg (net action)).1 = Except.error e) :
    (GS.syncCollection cfg net action idField store).2.1 = store ∧
    (GS.syncCollection cfg net action idField store).1 = Except.error e := by
  constructor <;> simp [GS.syncCollection, h]

/-- C6 witness: a vehicles pull against an always-failing transport
leaves the seeded store exactly as it was and surfaces the error. -/
theorem failed_pull_witness :
    (GS.syncCollection GOOGLE_CONFIG failNet "vehicles" "vehicle_id" [c3Vehicle]).2.1
      = [c3Vehicle] ∧
    (GS.syncCollection GOOGLE_CONFIG failNet "vehicles" "vehicle_id" [c3Vehicle]).1
      = Except.error "Failed to fetch" :=
  failed_pull_leaves_store_untouched GOOGLE_CONFIG failNet "vehicles" "vehicle_id"
    [c3Vehicle] "Failed to fetch" rfl

theorem attemptLoop_first_ok (fetch : Nat → FetchOutcome) (v : Envelope)
    (n : Nat) (le : Option String) (h : tryOnce (fetch 1) = Except.ok v) :
    GS.attemptLoop fetch 1 (n + 1) le = (Except.ok v, [1]) := by
  have hstep : GS.attemptLoop fetch 1 (n + 1) le
      = (match tryOnce (fetch 1) with
         | .ok v2 => (Except.ok v2, [1])
         | .error e =>
           ((GS.attemptLoop fetch 2 n (some e)).1,
             1 :: (GS.attemptLoop fetch 2 n (some e)).2)) := rfl
  rw [hstep, h]

/-- A syncData run on a healthy endpoint (first attempt of every action
succeeds) issues exactly one connectivity-test request and one vehicles
pull, whatever its store argument. -/
theorem syncData_trace_first_ok (net : Network) (store : List Record)
    (hok : ∀ action, ∃ envl, tryOnce (net action 1) = Except.ok envl) :
    (GS.syncData GOOGLE_CONFIG true net store).2.2 = [("", 1), ("vehicles", 1)] := by
  obtain ⟨e1, h1⟩ := hok ""
  obtain ⟨e2, h2⟩ := hok "vehicles"
  have hm1 : GS.makeApiRequest GOOGLE_CONFIG (net "") = (Except.ok e1, [1]) := by
    unfold GS.makeApiRequest
    rw [if_neg (by decide)]
    exact attemptLoop_first_ok (net "") e1 2 none h1
  have hm2 : GS.makeApiRequest GOOGLE_CONFIG (net "vehicles") = (Except.ok e2, [1]) := by
    unfold GS.makeApiRequest
    rw [if_neg (by decide)]
    exact attemptLoop_first_ok (net "vehicles") e2 2 none h2
  have hurl : ¬ (GOOGLE_CONFIG.webAppUrl = "") := by decide
  cases hd : e2.data with
  | none => simp [GS.syncData, GS.syncCollection, hm1, hm2, hd, hurl]
  | some remote => simp [GS.syncData, GS.syncCollection, hm1, hm2, hd, hurl]

/-- C4 counterexample: two back-to-back syncData invocations on a
healthy endpoint issue two vehicles pulls in total, not one — the code
consults no sync-in-progress flag. -/
theorem sync_no_reentrancy_guard_cex :
    ¬ (countPulls ((GS.syncData GOOGLE_CONFIG true healthyNet []).2.2
        ++ (GS.syncData GOOGLE_CONFIG true healthyNet []).2.2) = 1) := by decide

/-- C4, amended.  There is no re-entrant sync guard: syncData gates
only on the connectivity flag and the configured URL, so each of two
back-to-back sync requests performs its own network pull and exactly
two vehicles pulls are issued in total (whatever local stores the two
passes observe). -/
theorem sync_two_calls_two_pulls (net : Network) (store1 store2 : List Record)
    (hok : ∀ action, ∃ envl, tryOnce (net action 1) = Except.ok envl) :
    countPulls ((GS.syncData GOOGLE_CONFIG true net store1).2.2
      ++ (GS.syncData GOOGLE_CONFIG true net store2).2.2) = 2 := by
  rw [syncData_trace_first_ok net store1 hok, syncData_trace_first_ok net store2 hok]
  rfl

/-- C4 witness: two concrete back-to-back syncData runs against the
healthy endpoint issue exactly two pulls. -/
theorem sync_two_calls_two_pulls_witness :
    countPulls ((GS.syncData GOOGLE_CONFIG true healthyNet []).2.2
      ++ (GS.syncData GOOGLE_CONFIG true healthyNet [c3Vehicle]).2.2) = 2 :=
  sync_two_calls_two_pulls healthyNet [] [c3Vehicle] (fun _ => ⟨_, rfl⟩)

/-- C8.  Creating a vehicle with the connectivity flag false: the call
resolves with the built record, which is appended to the local store
immediately, carries the freshly generated id (the payload supplies
none) and both stamped timestamps, and no network request is issued;
moreover the local append happens identically whatever the
connectivity and whatever the remote POST outcome would be. -/
theorem optimistic_create_offline (cfg : Config) (genId now : String)
    (vehicleData : Record) (store : List Record) (net : Network)
    (hid : getField vehicleData "vehicle_id" = none) :
    (GS.addVehicle cfg false genId now vehicleData store net).1
      = Except.ok (GS.mkVehicle genId now vehicleData) ∧
    (GS.addVehicle cfg false genId now vehicleData store net).2.1
      = store ++ [GS.mkVehicle genId now vehicleData] ∧
    (GS.addVehicle cfg false genId now vehicleData store net).2.2 = [] ∧
    getField (GS.mkVehicle genId now vehicleData) "vehicle_id" = some (Value.str genId) ∧
    getField (GS.mkVehicle genId now vehicleData) "created_date" = some (Value.str now) ∧
    getField (GS.mkVehicle genId now vehicleData) "last_updated" = some (Value.str now) ∧
    (∀ (net2 : Network) (isOnline : Bool),
      (GS.addVehicle cfg isOnline genId now vehicleData store net2).2.1
        = store ++ [GS.mkVehicle genId now vehicleData]) := by
  refine ⟨by simp [GS.addVehicle], by simp [GS.addVehicle], by simp [GS.addVehicle],
    ?_, ?_, ?_, ?_⟩
  · unfold GS.mkVehicle
    rw [getField_spread]
    show getField (spread [("vehicle_id", Value.str genId)] vehicleData) "vehicle_id"
      = some (Value.str genId)
    rw [getField_spread, hid]
    rfl
  · unfold GS.mkVehicle
    rw [getField_spread]
    rfl
  · unfold GS.mkVehicle
    rw [getField_spread]
    rfl
  · intro net2 isOnline
    simp only [GS.addVehicle]
    split
    · split <;> rfl
    · rfl

/-- C8 witness: offline create of the Ford F150 payload appends to the
empty store, issues no request, and the record gets the generated id. -/
theorem optimistic_create_offline_witness :
    (GS.addVehicle GOOGLE_CONFIG false "abc123" "2025-08-20T00:00:00.000Z"
        c8Data [] failNet).2.1
      = [GS.mkVehicle "abc123" "2025-08-20T00:00:00.000Z" c8Data] ∧
    (GS.addVehicle GOOGLE_CONFIG false "abc123" "2025-08-20T00:00:00.000Z"
        c8Data [] failNet).2.2 = [] ∧
    getField (GS.mkVehicle "abc123" "2025-08-20T00:00:00.000Z" c8Data) "vehicle_id"
      = some (Value.str "abc123") := by
  have h := optimistic_create_offline GOOGLE_CONFIG "abc123" "2025-08-20T00:00:00.000Z"
    c8Data [] failNet (by decide)
  exact ⟨h.2.1, h.2.2.1, h.2.2.2.1⟩

theorem jsOrEmpty_str (g : String) : GAS.jsOrEmpty (some (Value.str g)) = Value.str g := by
  by_cases h : g = ""
  · simp [GAS.jsOrEmpty, GAS.jsOrDefault, GAS.falsy, h]
  · simp [GAS.jsOrEmpty, GAS.jsOrDefault, GAS.falsy, h]

/-- C9.  Each backend append builds its stored record around the fresh
server-side UUID and ignores any client-supplied identifier: the
returned record and the first cell of the appended row (the id column)
carry the generated id for all four collections, so — a fresh UUID
differing from the pre-existing client id — the remote record never sits
under the client-supplied id. -/
theorem backend_append_discards_client_id (genId now : String)
    (d1 d2 d3 d4 : Record) (cid1 cid2 cid3 cid4 : Value)
    (_hc1 : getField d1 "vehicle_id" = some cid1) (hne1 : Value.str genId ≠ cid1)
    (_hc2 : getField d2 "log_id" = some cid2) (hne2 : Value.str genId ≠ cid2)
    (_hc3 : getField d3 "receipt_id" = some cid3) (hne3 : Value.str genId ≠ cid3)
    (_hc4 : getField d4 "reminder_id" = some cid4) (hne4 : Value.str genId ≠ cid4) :
    (getField (GAS.addVehicle genId now d1) "vehicle_id" = some (Value.str genId) ∧
      (GAS.rowValues GAS.vehiclesHeaders (GAS.addVehicle genId now d1)).head?
        = some (Value.str genId) ∧
      getField (GAS.addVehicle genId now d1) "vehicle_id" ≠ some cid1) ∧
    (getField (GAS.addMaintenance genId now d2) "log_id" = some (Value.str genId) ∧
      (GAS.rowValues GAS.maintenanceHeaders (GAS.addMaintenance genId now d2)).head?
        = some (Value.str genId) ∧
      getField (GAS.addMaintenance genId now d2) "log_id" ≠ some cid2) ∧
    (getField (GAS.addReceipt genId now d3) "receipt_id" = some (Value.str genId) ∧
      (GAS.rowValues GAS.receiptsHeaders (GAS.addReceipt genId now d3)).head?
        = some (Value.str genId) ∧
      getField (GAS.addReceipt genId now d3) "receipt_id" ≠ some cid3) ∧
    (getField (GAS.addReminder genId now d4) "reminder_id" = some (Value.str genId) ∧
      (GAS.rowValues GAS.remindersHeaders (GAS.addReminder genId now d4)).head?
        = some (Value.str genId) ∧
      getField (GAS.addReminder genId now d4) "reminder_id" ≠ some cid4) := by
  refine ⟨⟨rfl, ?_, ?_⟩, ⟨rfl, ?_, ?_⟩, ⟨rfl, ?_, ?_⟩, ⟨rfl, ?_, ?_⟩⟩
  · show some (GAS.jsOrEmpty (some (Value.str genId))) = some (Value.str genId)
    rw [jsOrEmpty_str]
  · intro hh
    exact hne1 (Option.some.inj hh)
  · show some (GAS.jsOrEmpty (some (Value.str genId))) = some (Value.str genId)
    rw [jsOrEmpty_str]
  · intro hh
    exact hne2 (Option.some.inj hh)
  · show some (GAS.jsOrEmpty (some (Value.str genId))) = some (Value.str genId)
    rw [jsOrEmpty_str]
  · intro hh
    exact hne3 (Option.some.inj hh)
  · show some (GAS.jsOrEmpty (some (Value.str genId))) = some (Value.str genId)
    rw [jsOrEmpty_str]
  · intro hh
    exact hne4 (Option.some.inj hh)

/-- C9 witness: concrete payloads each carrying a client id end up
stored and returned under the server-generated UUID for all four
collections. -/
theorem backend_append_discards_client_id_witness :
    getField (GAS.addVehicle "uuid-1" "2025-08-20T00:00:00.000Z" c9VehicleData)
        "vehicle_id" = some (Value.str "uuid-1") ∧
    getField (GAS.addVehicle "uuid-1" "2025-08-20T00:00:00.000Z" c9VehicleData)
        "vehicle_id" ≠ some (Value.str "client-1") ∧
    getField (GAS.addMaintenance "uuid-1" "2025-08-20T00:00:00.000Z" c9MaintenanceData)
        "log_id" ≠ some (Value.str "client-2") ∧
    getField (GAS.addReceipt "uuid-1" "2025-08-20T00:00:00.000Z" c9ReceiptData)
        "receipt_id" ≠ some (Value.str "client-3") ∧
    getField (GAS.addReminder "uuid-1" "2025-08-20T00:00:00.000Z" c9ReminderData)
        "reminder_id" ≠ some (Value.str "client-4") := by
  have h := backend_append_discards_client_id "uuid-1" "2025-08-20T00:00:00.000Z"
    c9VehicleData c9MaintenanceData c9ReceiptData c9ReminderData
    (Value.str "client-1") (Value.str "client-2") (Value.str "client-3") (Value.str "client-4")
    (by decide) (by decide) (by decide) (by decide)
    (by decide) (by decide) (by decide) (by decide)
  exact ⟨h.1.1, h.1.2.2, h.2.1.2.2, h.2.2.1.2.2, h.2.2.2.2.2⟩

/-- C7 counterexample: a row whose last_updated equals the since filter
exactly is returned by the scan, though it is not newer than the
filter, so the scan is not the strictly-newer filter the claim states. -/
theorem since_scan_boundary_cex :
    GAS.getAllVehicles parse0 boundarySheet (some 1000)
      ≠ (GAS.getAllVehicles parse0 boundarySheet none).filter
          (fun v => match GAS.jsDate parse0 (getField v "last_updated") with
            | some t => decide (1000 < t)
            | none => false) := by decide

/-- C7, amended.  The since-filtered scan returns exactly the rows whose
freshness timestamp (last_updated for vehicles, created_date for
maintenance) is newer than OR EQUAL TO the filter value — the code
compares with greater-or-equal; concretely, rows at T0 and T0 + 10 s
scanned with since T0 + 5 s still return exactly the second row. -/
theorem since_scan_filters_geq (parse : String → Option Int)
    (sheet : GAS.Sheet) (s : Int) :
    GAS.getAllVehicles parse sheet (some s)
      = (GAS.getAllVehicles parse sheet none).filter
          (fun v => GAS.dateGE (GAS.jsDate parse (getField v "last_updated")) s) ∧
    GAS.getAllMaintenance parse sheet (some s)
      = (GAS.getAllMaintenance parse sheet none).filter
          (fun v => GAS.dateGE (GAS.jsDate parse (getField v "created_date")) s) ∧
    GAS.getAllVehicles parse0 demoSheetV (some 5000)
      = [[("vehicle_id", Value.str "2"), ("last_updated", Value.num 10000)]] ∧
    GAS.getAllMaintenance parse0 demoSheetM (some 5000)
      = [[("log_id", Value.str "2"), ("created_date", Value.num 10000)]] := by
  refine ⟨?_, ?_, by decide, by decide⟩
  · unfold GAS.getAllVehicles
    have hall : (sheet.rows.map (GAS.rowToRecord sheet.headers)).filter
        (GAS.sinceFilterVehicles parse none)
        = sheet.rows.map (GAS.rowToRecord sheet.headers) :=
      List.filter_eq_self.mpr fun a _ => rfl
    rw [hall]
    rfl
  · unfold GAS.getAllMaintenance
    have hall : (sheet.rows.map (GAS.rowToRecord sheet.headers)).filter
        (GAS.sinceFilterCreated parse none)
        = sheet.rows.map (GAS.rowToRecord sheet.headers) :=
      List.filter_eq_self.mpr fun a _ => rfl
    rw [hall]
    rfl

end VMM
